import Mathlib

/-!
Shallow embedding of the BOQ Scope Extractor (`src/app.py`) and proofs about it.

The program reads BOQ spreadsheets from a ZIP archive, locates a header row in
each sheet, resolves semantic columns by keyword matching, keeps pipe-related
rows, parses diameters from descriptions, normalizes units, and emits a final
table filtered to DIA >= 80.

Modelling conventions:
* Cell values are modelled as the strings produced by Python's `str(...)`
  (the code stringifies every cell before all decision logic).
* Text operations (`str.lower`, `str.strip`, regex `\d`, `\s`) are modelled on
  the ASCII range.
* The two `pd.read_excel` calls and their possible failures are modelled as
  `Except`-valued inputs of the per-file extractor.
-/

namespace BOQ

/-- Whitespace test for the ASCII characters matched by Python's `str.strip`
and the regex class `\s`: space, tab, newline, carriage return, vertical tab,
form feed. -/
def isSpaceChar (c : Char) : Bool :=
  decide (c.toNat = 32 ∨ c.toNat = 9 ∨ c.toNat = 10 ∨ c.toNat = 13 ∨
    c.toNat = 11 ∨ c.toNat = 12)

/-- Digit test modelling the regex class `\d` on the ASCII range. -/
def isDigitChar (c : Char) : Bool :=
  decide (48 ≤ c.toNat ∧ c.toNat ≤ 57)

/-- Lowercasing of a single character, modelling Python's `str.lower` on the
ASCII range: the uppercase letters map to their lowercase forms, every other
character is unchanged. -/
def lowerChar : Char → Char
  | 'A' => 'a' | 'B' => 'b' | 'C' => 'c' | 'D' => 'd' | 'E' => 'e' | 'F' => 'f'
  | 'G' => 'g' | 'H' => 'h' | 'I' => 'i' | 'J' => 'j' | 'K' => 'k' | 'L' => 'l'
  | 'M' => 'm' | 'N' => 'n' | 'O' => 'o' | 'P' => 'p' | 'Q' => 'q' | 'R' => 'r'
  | 'S' => 's' | 'T' => 't' | 'U' => 'u' | 'V' => 'v' | 'W' => 'w' | 'X' => 'x'
  | 'Y' => 'y' | 'Z' => 'z'
  | c => c

/-- Python `str.lower` (ASCII model). -/
def pyLower (s : String) : String := ⟨s.data.map lowerChar⟩

/-- Trimming of surrounding whitespace from a character list, modelling
Python `str.strip`. -/
def stripList (l : List Char) : List Char :=
  ((l.dropWhile isSpaceChar).reverse.dropWhile isSpaceChar).reverse

/-- Python `str.strip`. -/
def pyStrip (s : String) : String := ⟨stripList s.data⟩

/-- Test whether the first list is an initial segment of the second, used to
implement the Python substring test. -/
def listStarts : List Char → List Char → Bool
  | [], _ => true
  | _ :: _, [] => false
  | a :: as, b :: bs => a == b && listStarts as bs

/-- Test whether `needle` occurs contiguously inside the second list; this is
Python's `needle in hay` on strings. -/
def listSub (needle : List Char) : List Char → Bool
  | [] => listStarts needle []
  | b :: bs => listStarts needle (b :: bs) || listSub needle bs

/-- Python substring containment `needle in hay`. -/
def containsSub (needle hay : String) : Bool := listSub needle.data hay.data

/-- Specification-level substring relation: `needle` occurs contiguously in
`hay`. -/
def SubStr (needle hay : String) : Prop :=
  ∃ pre post, hay.data = pre ++ needle.data ++ post

/-- Decimal value of a digit run, modelling Python's `int` on the matched
group. -/
def digitsToNat (ds : List Char) : Nat :=
  ds.foldl (fun a c => 10 * a + (c.toNat - 48)) 0

/-- Attempt to match the regex `(\d+)\s*mm` at the start of `l`, returning the
value of the digit group.  Because a digit is neither whitespace nor `m`, the
greedy backtracking search of `re` can only succeed by consuming the maximal
digit run and then the maximal whitespace run, which is what this function
does. -/
def diaMatchAt (l : List Char) : Option Nat :=
  if (l.takeWhile isDigitChar).isEmpty then none
  else if listStarts ['m', 'm'] ((l.dropWhile isDigitChar).dropWhile isSpaceChar) then
    some (digitsToNat (l.takeWhile isDigitChar))
  else none

/-- Leftmost-match scan of `re.search`: try to match at every position, in
order. -/
def diaScan : List Char → Option Nat
  | [] => none
  | c :: cs =>
    match diaMatchAt (c :: cs) with
    | some n => some n
    | none => diaScan cs

/-- `extract_dia` from `src/app.py`: lowercase the text and search for the
first occurrence of `(\d+)\s*mm`, returning the digits as an integer, else
`None`. -/
def extract_dia (s : String) : Option Nat := diaScan (pyLower s).data

/-- Specification-level statement that the text `l` begins with one or more
digits, followed by optional whitespace and the substring "mm", and that `n`
is the integer formed by those digits. -/
def DiaTokenAt (l : List Char) (n : Nat) : Prop :=
  ∃ ds ws rest, l = ds ++ ws ++ 'm' :: 'm' :: rest ∧ ds ≠ [] ∧
    (∀ c ∈ ds, isDigitChar c = true) ∧ (∀ c ∈ ws, isSpaceChar c = true) ∧
    n = digitsToNat ds

/-- Test from `find_column` in `src/app.py`: the lowercased column label
contains at least one of the keywords. -/
def colMatches (col : String) (kws : List String) : Bool :=
  kws.any fun k => containsSub k (pyLower col)

/-- `find_column` from `src/app.py`: return the first column whose lowercased
label contains any keyword, else `None`.  Column labels are modelled as the
strings `str(col)` produces. -/
def find_column : List String → List String → Option String
  | [], _ => none
  | col :: rest, kws =>
    if colMatches col kws then some col else find_column rest kws

/-- Test from the header-locating loop in `process_boq_file`: some lowercased
cell of the row contains "desc" or "item", and some cell contains "unit". -/
def rowIsHeader (row : List String) : Bool :=
  (row.any fun cell =>
    containsSub "desc" (pyLower cell) || containsSub "item" (pyLower cell)) &&
  (row.any fun cell => containsSub "unit" (pyLower cell))

/-- First index satisfying `pred`, among `fuel` consecutive indices starting
at `start`; models the `for i in range(...)` search loop with its `break`. -/
def findIdxFrom (pred : Nat → Bool) : Nat → Nat → Option Nat
  | _, 0 => none
  | start, fuel + 1 =>
    if pred start then some start else findIdxFrom pred (start + 1) fuel

/-- Header-row search of `process_boq_file`: the first row index `i` below
`min 30 (number of rows)` whose row satisfies `rowIsHeader`. -/
def findHeaderRow (sheet : List (List String)) : Option Nat :=
  findIdxFrom (fun i => rowIsHeader (sheet.getD i [])) 0 (min 30 sheet.length)

/-- Unit synonym table from `process_boq_file`, applied by
`Series.replace` as an exact whole-value mapping. -/
def unitSynonyms : List String := ["per metre", "rm", "rmt", "mtr", "mtrs"]

/-- Unit normalization of `process_boq_file` line 67: `str.strip`, then
`str.lower`, then the exact-value synonym collapse to "meter". -/
def normalizeUnit (s : String) : String :=
  if pyLower (pyStrip s) ∈ unitSynonyms then "meter" else pyLower (pyStrip s)

/-- Keyword list of `is_pipe_row` in `src/app.py`. -/
def pipeKeywords : List String :=
  ["pipe", "di", "ci", "m.s", "k-7", "k-9", "hdpe", "pvc", "upvc"]

/-- `is_pipe_row` from `src/app.py`, as a function of the row's stringified
Description cell. -/
def is_pipe_row (desc : String) : Bool :=
  pipeKeywords.any fun x => containsSub x (pyLower desc)

/-- K-9 column derivation: `.str.lower().str.contains("k-9|k9")`, a regex
alternation of the two literals, serialized as "Yes"/"". -/
def k9Flag (desc : String) : String :=
  if containsSub "k-9" (pyLower desc) || containsSub "k9" (pyLower desc) then "Yes"
  else ""

/-- K-7 column derivation: `.str.lower().str.contains("k-7")`, serialized as
"Yes"/"". -/
def k7Flag (desc : String) : String :=
  if containsSub "k-7" (pyLower desc) then "Yes" else ""

/-- Python truthiness of an optional column label (`not desc_col`): `None`
and the empty string are falsy.  Labels are modelled as strings. -/
def pyFalsy : Option String → Bool
  | none => true
  | some s => s == ""

/-- Integer-literal model of `pd.to_numeric(..., errors="coerce")` on a cell:
optional sign and decimal digits after trimming, `none` for anything else.
No claim depends on the details of the numeric parse beyond its optionality. -/
def pyToNumeric (s : String) : Option Int :=
  match (pyStrip s).data with
  | [] => none
  | '-' :: ds =>
    if ds ≠ [] ∧ ds.all isDigitChar then some (-(digitsToNat ds : Int)) else none
  | ds =>
    if ds.all isDigitChar then some (digitsToNat ds) else none

/-- One output record of a successfully extracted pipe row, with the fields
written by `process_boq_file`. -/
structure Item where
  tdr : String
  file : String
  desc : String
  k9 : String
  k7 : String
  dia : Option Nat
  rate : Option Int
  units : String
  qty : Option Int
deriving DecidableEq, Repr

/-- One element of the list returned by `process_boq_file`: either a
diagnostic row (carrying only provenance and a message) or an extracted
item. -/
inductive OutRecord where
  | diag : String → String → String → OutRecord
  | item : Item → OutRecord
deriving DecidableEq, Repr

/-- Inputs of one `process_boq_file` call: provenance plus the two
`pd.read_excel` reads, whose failures are modelled as `Except.error` with the
stringified exception. The structured read takes the chosen header row
index. -/
structure BOQInput where
  tdr : String
  file : String
  raw : Except String (List (List String))
  structuredAt : Nat → Except String (List String × List (List String))

/-- Index of a column label in the header, for label-based cell access
(`row[col]`). -/
def colIdx (cols : List String) (c : String) : Nat :=
  cols.findIdx fun x => x == c

/-- Cell of `row` under the column labelled `c`; a missing cell reads as the
string `str(nan)` produces. -/
def getCell (cols : List String) (row : List String) (c : String) : String :=
  row.getD (colIdx cols c) "nan"

/-- In-place unit-column normalization of `process_boq_file` line 67, which
reassigns `df[unit_col]`; every later read of that column sees the normalized
value. -/
def normalizeUnitRow (cols : List String) (uc : String) (row : List String) :
    List String :=
  row.set (colIdx cols uc) (normalizeUnit (getCell cols row uc))

/-- Pipe-row filter of `process_boq_file` line 75, applied to the dataframe
after the unit-column reassignment. -/
def pipeFilteredRows (cols : List String) (dc uc : String)
    (rows : List (List String)) : List (List String) :=
  (rows.map (normalizeUnitRow cols uc)).filter fun r =>
    is_pipe_row (getCell cols r dc)

/-- Construction of one output record from a matching row
(`process_boq_file` lines 79-92). -/
def buildItem (tdr file : String) (cols : List String) (dc uc : String)
    (qtyCol rateCol : Option String) (r : List String) : Item :=
  { tdr := tdr
    file := file
    desc := getCell cols r dc
    k9 := k9Flag (getCell cols r dc)
    k7 := k7Flag (getCell cols r dc)
    dia := extract_dia (getCell cols r dc)
    rate :=
      if pyFalsy rateCol then some 0
      else pyToNumeric (getCell cols r (rateCol.getD ""))
    units := pyStrip (getCell cols r uc)
    qty :=
      if pyFalsy qtyCol then none
      else pyToNumeric (getCell cols r (qtyCol.getD "")) }

/-- Part of `process_boq_file` after the structured read succeeded: column
resolution, required-column check, unit normalization, pipe filtering, and
record construction. -/
def extract_items (tdr file : String) (cols : List String)
    (rows : List (List String)) : List OutRecord :=
  if pyFalsy (find_column cols ["desc", "item"]) ||
      pyFalsy (find_column cols ["unit"]) then
    [OutRecord.diag tdr file "⚠️ Missing required columns"]
  else
    if (pipeFilteredRows cols ((find_column cols ["desc", "item"]).getD "")
        ((find_column cols ["unit"]).getD "") rows).isEmpty then
      []
    else
      (pipeFilteredRows cols ((find_column cols ["desc", "item"]).getD "")
          ((find_column cols ["unit"]).getD "") rows).map fun r =>
        OutRecord.item (buildItem tdr file cols
          ((find_column cols ["desc", "item"]).getD "")
          ((find_column cols ["unit"]).getD "")
          (find_column cols ["qty", "quantity"])
          (find_column cols ["rate", "amount", "estimate"]) r)

/-- `process_boq_file` from `src/app.py`. -/
def process_boq_file (inp : BOQInput) : List OutRecord :=
  match inp.raw with
  | Except.error e =>
    [OutRecord.diag inp.tdr inp.file ("❌ Failed to read file: " ++ e)]
  | Except.ok dfRaw =>
    match findHeaderRow dfRaw with
    | none => [OutRecord.diag inp.tdr inp.file "⚠️ Header not found"]
    | some hi =>
      match inp.structuredAt hi with
      | Except.error e =>
        [OutRecord.diag inp.tdr inp.file ("❌ Error loading structured data: " ++ e)]
      | Except.ok (cols, rows) => extract_items inp.tdr inp.file cols rows

/-- DIA value a record contributes to the summary dataframe: items carry
their parsed diameter (or NaN), diagnostic rows carry no DIA key and read as
NaN. -/
def recDia : OutRecord → Option Nat
  | OutRecord.diag _ _ _ => none
  | OutRecord.item it => it.dia

/-- Row test of the final `df_summary["DIA"] >= 80` filter; a NaN comparison
is false. -/
def diaPass (r : OutRecord) : Bool :=
  match recDia r with
  | some n => decide (80 ≤ n)
  | none => false

/-- The DIA >= 80 filter over the combined rows. -/
def filterDia (rs : List OutRecord) : List OutRecord := rs.filter diaPass

/-- Item test used to model pandas column formation: the summary dataframe
has a DIA column exactly when some record carries the DIA key. -/
def isItemRec : OutRecord → Bool
  | OutRecord.item _ => true
  | OutRecord.diag _ _ _ => false

/-- Concatenation of the per-file results in processing order
(`combined_rows.extend(...)`). -/
def combinedRows : List BOQInput → List OutRecord
  | [] => []
  | f :: fs => process_boq_file f ++ combinedRows fs

/-- Serial-number insertion `range(1, len+1)`. -/
def addSerials : Nat → List OutRecord → List (Nat × OutRecord)
  | _, [] => []
  | n, r :: rs => (n, r) :: addSerials (n + 1) rs

/-- Observable outcome of the batch step.  `rendered` is the success branch
that displays and exports the (possibly empty) filtered table;
`warnNoRows` is the "No matching BOQ rows found" warning, shown only when the
pre-filter combined rows are empty; `keyErrorDIA` models the `KeyError`
pandas raises at `df_summary["DIA"]` when no record carries a DIA key (a
batch of diagnostics only). -/
inductive BatchOutcome where
  | rendered : List (Nat × OutRecord) → BatchOutcome
  | warnNoRows : BatchOutcome
  | keyErrorDIA : BatchOutcome
deriving DecidableEq, Repr

/-- Batch aggregation and rendering logic of the `__main__` block. -/
def runBatch (files : List BOQInput) : BatchOutcome :=
  if (combinedRows files).isEmpty then BatchOutcome.warnNoRows
  else if (combinedRows files).any isItemRec then
    BatchOutcome.rendered (addSerials 1 (filterDia (combinedRows files)))
  else BatchOutcome.keyErrorDIA

/-- Rows of the displayed/exported table, empty for the non-success
outcomes. -/
def renderedRows : BatchOutcome → List (Nat × OutRecord)
  | BatchOutcome.rendered l => l
  | _ => []

/-- Specification-level column-match predicate: the lowercased label contains
at least one keyword. -/
def ColMatchP (col : String) (kws : List String) : Prop :=
  ∃ k ∈ kws, SubStr k (pyLower col)

/-- Specification-level header-row predicate: some lowercased cell contains
"desc" or "item", and some cell contains "unit". -/
def HeaderRowP (row : List String) : Prop :=
  (∃ cell ∈ row, SubStr "desc" (pyLower cell) ∨ SubStr "item" (pyLower cell)) ∧
  ∃ cell ∈ row, SubStr "unit" (pyLower cell)

/-- Concrete input file: one header row and one pipe row whose Unit cell is
" RMT " (uppercase, padded). -/
def boqSampleUnits : BOQInput :=
  { tdr := "TDR-A"
    file := "boq.xlsx"
    raw := Except.ok [["Item Description", "Unit"]]
    structuredAt := fun _ =>
      Except.ok (["Item Description", "Unit"], [["DI Pipe 100mm", " RMT "]]) }

/-- Concrete input file: one pipe row whose diameter (60) is below the filter
threshold. -/
def boqSampleSmallDia : BOQInput :=
  { tdr := "TDR-B"
    file := "small.xlsx"
    raw := Except.ok [["Item Description", "Unit"]]
    structuredAt := fun _ =>
      Except.ok (["Item Description", "Unit"], [["DI Pipe 60mm", "m"]]) }

theorem listStarts_iff (as : List Char) :
    ∀ bs, listStarts as bs = true ↔ ∃ t, bs = as ++ t := by
  induction as with
  | nil =>
    intro bs
    simp [listStarts]
  | cons a as ih =>
    intro bs
    cases bs with
    | nil =>
      simp [listStarts]
    | cons b bs =>
      simp only [listStarts, Bool.and_eq_true, beq_iff_eq, ih bs]
      constructor
      · rintro ⟨rfl, t, rfl⟩
        exact ⟨t, rfl⟩
      · rintro ⟨t, h⟩
        cases h
        exact ⟨rfl, t, rfl⟩

theorem listSub_iff (needle : List Char) :
    ∀ hay, listSub needle hay = true ↔ ∃ pre post, hay = pre ++ needle ++ post := by
  intro hay
  induction hay with
  | nil =>
    simp only [listSub, listStarts_iff]
    constructor
    · rintro ⟨t, h⟩
      have hn : needle = [] := (List.append_eq_nil.mp h.symm).1
      exact ⟨[], [], by simp [hn]⟩
    · rintro ⟨pre, post, h⟩
      have h1 := List.append_eq_nil.mp h.symm
      have h2 := List.append_eq_nil.mp h1.1
      exact ⟨[], by simp [h2.2]⟩
  | cons b bs ih =>
    simp only [listSub, Bool.or_eq_true, listStarts_iff, ih]
    constructor
    · rintro (⟨t, h⟩ | ⟨pre, post, h⟩)
      · exact ⟨[], t, by simpa using h⟩
      · exact ⟨b :: pre, post, by simp [h]⟩
    · rintro ⟨pre, post, h⟩
      cases pre with
      | nil =>
        exact Or.inl ⟨post, by simpa using h⟩
      | cons p ps =>
        simp only [List.cons_append, List.cons.injEq] at h
        exact Or.inr ⟨ps, post, h.2⟩

theorem containsSub_iff (needle hay : String) :
    containsSub needle hay = true ↔ SubStr needle hay := by
  simpa [containsSub, SubStr] using listSub_iff needle.data hay.data

theorem isSpaceChar_lowerChar (c : Char) :
    isSpaceChar (lowerChar c) = isSpaceChar c := by
  unfold lowerChar
  split <;> rfl

/-- Whitespace characters are not digits. -/
theorem not_digit_of_space {c : Char} (h : isSpaceChar c = true) :
    isDigitChar c = false := by
  simp only [isSpaceChar, decide_eq_true_eq] at h
  simp only [isDigitChar, decide_eq_false_iff_not]
  omega

theorem stripList_eq_rdropWhile (l : List Char) :
    stripList l = List.rdropWhile isSpaceChar (l.dropWhile isSpaceChar) := rfl

theorem dropWhile_stripList (l : List Char) :
    (stripList l).dropWhile isSpaceChar = stripList l := by
  rw [stripList_eq_rdropWhile]
  obtain ⟨t, ht⟩ :=
    List.rdropWhile_prefix (p := isSpaceChar) (l := l.dropWhile isSpaceChar)
  cases hr : List.rdropWhile isSpaceChar (l.dropWhile isSpaceChar) with
  | nil => simp
  | cons c cs =>
    have hhead : (l.dropWhile isSpaceChar).head? = some c := by
      rw [← ht, hr]
      rfl
    have hc : isSpaceChar c = false := by
      have hmatch := List.head?_dropWhile_not isSpaceChar l
      rw [hhead] at hmatch
      exact hmatch
    rw [List.dropWhile_cons_of_neg (by simp [hc])]

theorem stripList_idem (l : List Char) :
    stripList (stripList l) = stripList l := by
  rw [stripList_eq_rdropWhile (stripList l), dropWhile_stripList,
    stripList_eq_rdropWhile, List.rdropWhile_idempotent]

theorem stripList_map_lowerChar (l : List Char) :
    stripList (l.map lowerChar) = (stripList l).map lowerChar := by
  have hfun : (fun c => isSpaceChar (lowerChar c)) = isSpaceChar := by
    funext c
    exact isSpaceChar_lowerChar c
  have hdrop : ∀ m : List Char,
      (m.map lowerChar).dropWhile isSpaceChar =
        (m.dropWhile isSpaceChar).map lowerChar := by
    intro m
    rw [List.dropWhile_map]
    simp only [Function.comp_def, hfun]
  unfold stripList
  rw [hdrop, ← List.map_reverse, hdrop, List.map_reverse]

theorem diaMatchAt_nil : diaMatchAt [] = none := rfl

theorem diaMatchAt_some_iff (l : List Char) (n : Nat) :
    diaMatchAt l = some n ↔ DiaTokenAt l n := by
  constructor
  · intro h
    unfold diaMatchAt at h
    split at h
    · exact absurd h (by simp)
    · rename_i h1
      split at h
      · rename_i h2
        obtain ⟨t, ht⟩ := (listStarts_iff _ _).mp h2
        refine ⟨l.takeWhile isDigitChar,
          (l.dropWhile isDigitChar).takeWhile isSpaceChar, t, ?_, ?_, ?_, ?_, ?_⟩
        · conv_lhs => rw [← List.takeWhile_append_dropWhile (p := isDigitChar) (l := l)]
          rw [List.append_assoc]
          congr 1
          conv_lhs =>
            rw [← List.takeWhile_append_dropWhile (p := isSpaceChar)
              (l := l.dropWhile isDigitChar)]
          rw [ht]
          rfl
        · simpa [List.isEmpty_iff] using h1
        · intro c hc
          exact List.mem_takeWhile_imp hc
        · intro c hc
          exact List.mem_takeWhile_imp hc
        · exact (Option.some.injEq _ _).mp h.symm
      · exact absurd h (by simp)
  · rintro ⟨ds, ws, rest, hl, hne, hds, hws, hn⟩
    rw [List.append_assoc] at hl
    have hmw : isSpaceChar 'm' = false := by decide
    have hmd : isDigitChar 'm' = false := by decide
    have htake : l.takeWhile isDigitChar = ds := by
      rw [hl, List.takeWhile_append_of_pos (by simpa using hds)]
      cases ws with
      | nil =>
        simp [List.takeWhile_cons_of_neg, hmd]
      | cons w ws' =>
        have : isDigitChar w = false := not_digit_of_space (hws w (by simp))
        simp [List.takeWhile_cons_of_neg, this]
    have hdrop : l.dropWhile isDigitChar = ws ++ 'm' :: 'm' :: rest := by
      rw [hl, List.dropWhile_append_of_pos (by simpa using hds)]
      cases ws with
      | nil =>
        simp [List.dropWhile_cons_of_neg, hmd]
      | cons w ws' =>
        have : isDigitChar w = false := not_digit_of_space (hws w (by simp))
        simp [List.dropWhile_cons_of_neg, this]
    have hdrop2 : (l.dropWhile isDigitChar).dropWhile isSpaceChar =
        'm' :: 'm' :: rest := by
      rw [hdrop, List.dropWhile_append_of_pos (by simpa using hws)]
      simp [List.dropWhile_cons_of_neg, hmw]
    unfold diaMatchAt
    rw [htake, hdrop2]
    have hne' : ds.isEmpty = false := by
      simpa [List.isEmpty_iff] using hne
    rw [hne']
    simp [listStarts, hn]

theorem diaScan_some_iff (l : List Char) :
    ∀ n, diaScan l = some n ↔
      ∃ i, diaMatchAt (l.drop i) = some n ∧
        ∀ j, j < i → diaMatchAt (l.drop j) = none := by
  induction l with
  | nil =>
    intro n
    constructor
    · intro h
      simp [diaScan] at h
    · rintro ⟨i, hi, -⟩
      rw [List.drop_nil, diaMatchAt_nil] at hi
      cases hi
  | cons c cs ih =>
    intro n
    cases h : diaMatchAt (c :: cs) with
    | some m =>
      simp only [diaScan, h]
      constructor
      · intro h2
        refine ⟨0, ?_, ?_⟩
        · rw [List.drop_zero, h]
          exact h2
        · intro j hj
          exact absurd hj (Nat.not_lt_zero j)
      · rintro ⟨i, hi, hlt⟩
        cases i with
        | zero =>
          rw [List.drop_zero, h] at hi
          exact hi
        | succ i' =>
          have := hlt 0 (by omega)
          rw [List.drop_zero, h] at this
          cases this
    | none =>
      simp only [diaScan, h]
      constructor
      · intro hsc
        obtain ⟨i, hi, hlt⟩ := (ih n).mp hsc
        refine ⟨i + 1, by simpa using hi, ?_⟩
        intro j hj
        cases j with
        | zero => simpa using h
        | succ j' =>
          simpa using hlt j' (by omega)
      · rintro ⟨i, hi, hlt⟩
        cases i with
        | zero =>
          rw [List.drop_zero, h] at hi
          cases hi
        | succ i' =>
          refine (ih n).mpr ⟨i', by simpa using hi, ?_⟩
          intro j hj
          simpa using hlt (j + 1) (by omega)

theorem diaScan_none_iff (l : List Char) :
    diaScan l = none ↔ ∀ i, diaMatchAt (l.drop i) = none := by
  induction l with
  | nil =>
    simp [diaScan, List.drop_nil, diaMatchAt_nil]
  | cons c cs ih =>
    cases h : diaMatchAt (c :: cs) with
    | some m =>
      simp only [diaScan, h]
      constructor
      · intro h2
        cases h2
      · intro h2
        have := h2 0
        rw [List.drop_zero, h] at this
        cases this
    | none =>
      simp only [diaScan, h, ih]
      constructor
      · intro h2 i
        cases i with
        | zero => simpa using h
        | succ i' => simpa using h2 i'
      · intro h2 i
        simpa using h2 (i + 1)

theorem colMatches_iff (col : String) (kws : List String) :
    colMatches col kws = true ↔ ColMatchP col kws := by
  simp [colMatches, ColMatchP, List.any_eq_true, containsSub_iff]

theorem rowIsHeader_iff (row : List String) :
    rowIsHeader row = true ↔ HeaderRowP row := by
  simp [rowIsHeader, HeaderRowP, List.any_eq_true, containsSub_iff]

theorem findIdxFrom_some_iff (pred : Nat → Bool) :
    ∀ fuel start i, findIdxFrom pred start fuel = some i ↔
      (start ≤ i ∧ i < start + fuel ∧ pred i = true ∧
        ∀ j, start ≤ j → j < i → pred j = false) := by
  intro fuel
  induction fuel with
  | zero =>
    intro start i
    constructor
    · intro h
      cases h
    · rintro ⟨h1, h2, -, -⟩
      omega
  | succ fuel ih =>
    intro start i
    simp only [findIdxFrom]
    by_cases h : pred start = true
    · rw [if_pos h]
      constructor
      · intro h2
        injection h2 with h2
        subst h2
        exact ⟨Nat.le_refl _, by omega, h, fun j hj1 hj2 => by omega⟩
      · rintro ⟨h1, h2, h3, h4⟩
        have hi : i = start := by
          by_contra hne
          have hlt : start < i := Nat.lt_of_le_of_ne h1 (Ne.symm hne)
          have := h4 start (Nat.le_refl _) hlt
          rw [h] at this
          cases this
        subst hi
        rfl
    · rw [if_neg h]
      rw [ih (start + 1) i]
      constructor
      · rintro ⟨h1, h2, h3, h4⟩
        refine ⟨by omega, by omega, h3, ?_⟩
        intro j hj1 hj2
        rcases Nat.eq_or_lt_of_le hj1 with rfl | hlt
        · exact Bool.eq_false_iff.mpr h
        · exact h4 j (by omega) hj2
      · rintro ⟨h1, h2, h3, h4⟩
        have hne : i ≠ start := by
          rintro rfl
          exact h h3
        exact ⟨by omega, by omega, h3, fun j hj1 hj2 => h4 j (by omega) hj2⟩

theorem findIdxFrom_none_iff (pred : Nat → Bool) :
    ∀ fuel start, findIdxFrom pred start fuel = none ↔
      ∀ j, start ≤ j → j < start + fuel → pred j = false := by
  intro fuel
  induction fuel with
  | zero =>
    intro start
    constructor
    · intro h j h1 h2
      omega
    · intro h
      rfl
  | succ fuel ih =>
    intro start
    simp only [findIdxFrom]
    by_cases h : pred start = true
    · rw [if_pos h]
      constructor
      · intro h2
        cases h2
      · intro h2
        have := h2 start (Nat.le_refl _) (by omega)
        rw [h] at this
        cases this
    · rw [if_neg h]
      rw [ih (start + 1)]
      constructor
      · intro h2 j hj1 hj2
        rcases Nat.eq_or_lt_of_le hj1 with rfl | hlt
        · exact Bool.eq_false_iff.mpr h
        · exact h2 j (by omega) (by omega)
      · intro h2 j hj1 hj2
        exact h2 j (by omega) (by omega)

theorem find_column_some_iff (kws : List String) :
    ∀ cols c, find_column cols kws = some c ↔
      ∃ pre suf, cols = pre ++ c :: suf ∧ ColMatchP c kws ∧
        ∀ x ∈ pre, ¬ColMatchP x kws := by
  intro cols
  induction cols with
  | nil =>
    intro c
    constructor
    · intro h
      cases h
    · rintro ⟨pre, suf, heq, -, -⟩
      cases pre <;> cases heq
  | cons col rest ih =>
    intro c
    simp only [find_column]
    by_cases h : colMatches col kws = true
    · rw [if_pos h]
      constructor
      · intro h2
        injection h2 with h2
        subst h2
        exact ⟨[], rest, rfl, (colMatches_iff _ _).mp h, by simp⟩
      · rintro ⟨pre, suf, heq, hc, hpre⟩
        cases pre with
        | nil =>
          simp only [List.nil_append, List.cons.injEq] at heq
          rw [heq.1]
        | cons p ps =>
          simp only [List.cons_append, List.cons.injEq] at heq
          exact absurd (heq.1 ▸ (colMatches_iff _ _).mp h) (hpre p (by simp))
    · rw [if_neg h]
      rw [ih c]
      constructor
      · rintro ⟨pre, suf, heq, hc, hpre⟩
        refine ⟨col :: pre, suf, by simp [heq], hc, ?_⟩
        intro x hx
        rcases List.mem_cons.mp hx with rfl | hx'
        · intro hcm
          exact h ((colMatches_iff _ _).mpr hcm)
        · exact hpre x hx'
      · rintro ⟨pre, suf, heq, hc, hpre⟩
        cases pre with
        | nil =>
          simp only [List.nil_append, List.cons.injEq] at heq
          exact absurd (heq.1 ▸ hc) fun hcm => h ((colMatches_iff _ _).mpr hcm)
        | cons p ps =>
          simp only [List.cons_append, List.cons.injEq] at heq
          exact ⟨ps, suf, heq.2, hc, fun x hx => hpre x (by simp [hx])⟩

theorem find_column_none_iff (kws : List String) :
    ∀ cols, find_column cols kws = none ↔ ∀ x ∈ cols, ¬ColMatchP x kws := by
  intro cols
  induction cols with
  | nil => simp [find_column]
  | cons col rest ih =>
    simp only [find_column]
    by_cases h : colMatches col kws = true
    · rw [if_pos h]
      constructor
      · intro h2
        cases h2
      · intro h2
        exact absurd ((colMatches_iff _ _).mp h) (h2 col (by simp))
    · rw [if_neg h]
      rw [ih]
      constructor
      · intro h2 x hx
        rcases List.mem_cons.mp hx with rfl | hx'
        · intro hcm
          exact h ((colMatches_iff _ _).mpr hcm)
        · exact h2 x hx'
      · intro h2 x hx
        exact h2 x (by simp [hx])

theorem mem_addSerials (r : OutRecord) :
    ∀ l n, (∃ k, (k, r) ∈ addSerials n l) ↔ r ∈ l := by
  intro l
  induction l with
  | nil => simp [addSerials]
  | cons a as ih =>
    intro n
    simp only [addSerials, List.mem_cons, Prod.mk.injEq]
    constructor
    · rintro ⟨k, ⟨-, h2⟩ | hk⟩
      · exact Or.inl h2
      · exact Or.inr ((ih (n + 1)).mp ⟨k, hk⟩)
    · rintro (rfl | hr')
      · exact ⟨n, Or.inl ⟨rfl, rfl⟩⟩
      · obtain ⟨k, hk⟩ := (ih (n + 1)).mpr hr'
        exact ⟨k, Or.inr hk⟩

theorem extract_items_eq_map (tdr file : String) (cols : List String)
    (rows : List (List String))
    (h : (pyFalsy (find_column cols ["desc", "item"]) ||
      pyFalsy (find_column cols ["unit"])) = false) :
    extract_items tdr file cols rows =
      (pipeFilteredRows cols ((find_column cols ["desc", "item"]).getD "")
          ((find_column cols ["unit"]).getD "") rows).map fun r =>
        OutRecord.item (buildItem tdr file cols
          ((find_column cols ["desc", "item"]).getD "")
          ((find_column cols ["unit"]).getD "")
          (find_column cols ["qty", "quantity"])
          (find_column cols ["rate", "amount", "estimate"]) r) := by
  by_cases he : (pipeFilteredRows cols ((find_column cols ["desc", "item"]).getD "")
      ((find_column cols ["unit"]).getD "") rows).isEmpty = true
  · rw [List.isEmpty_iff] at he
    simp [extract_items, h, he]
  · simp [extract_items, h, he]

theorem mem_extract_items (tdr file : String) (cols : List String)
    (rows : List (List String)) (it : Item)
    (h : OutRecord.item it ∈ extract_items tdr file cols rows) :
    (pyFalsy (find_column cols ["desc", "item"]) ||
      pyFalsy (find_column cols ["unit"])) = false ∧
    ∃ r ∈ pipeFilteredRows cols ((find_column cols ["desc", "item"]).getD "")
        ((find_column cols ["unit"]).getD "") rows,
      it = buildItem tdr file cols
        ((find_column cols ["desc", "item"]).getD "")
        ((find_column cols ["unit"]).getD "")
        (find_column cols ["qty", "quantity"])
        (find_column cols ["rate", "amount", "estimate"]) r := by
  by_cases hc : (pyFalsy (find_column cols ["desc", "item"]) ||
      pyFalsy (find_column cols ["unit"])) = true
  · unfold extract_items at h
    rw [if_pos hc] at h
    simp at h
  · have hc' := Bool.eq_false_iff.mpr hc
    refine ⟨hc', ?_⟩
    rw [extract_items_eq_map tdr file cols rows hc'] at h
    obtain ⟨r, hr, heq⟩ := List.mem_map.mp h
    injection heq with heq
    exact ⟨r, hr, heq.symm⟩

theorem pyStrip_pyLower_pyStrip (s : String) :
    pyStrip (pyLower (pyStrip s)) = pyLower (pyStrip s) := by
  show (⟨stripList ((stripList s.data).map lowerChar)⟩ : String) = _
  rw [stripList_map_lowerChar, stripList_idem]
  rfl

theorem pyStrip_normalizeUnit (s : String) :
    pyStrip (normalizeUnit s) = normalizeUnit s := by
  unfold normalizeUnit
  by_cases h : pyLower (pyStrip s) ∈ unitSynonyms
  · rw [if_pos h]
    decide
  · rw [if_neg h]
    exact pyStrip_pyLower_pyStrip s

theorem normalizeUnit_nan : normalizeUnit "nan" = "nan" := by decide

theorem getCell_normalizeUnitRow (cols : List String) (uc : String)
    (r : List String) :
    getCell cols (normalizeUnitRow cols uc r) uc = normalizeUnit (getCell cols r uc) := by
  unfold getCell normalizeUnitRow
  rw [List.getD_eq_getElem?_getD, List.getD_eq_getElem?_getD, List.getElem?_set]
  rw [if_pos rfl]
  by_cases h : colIdx cols uc < r.length
  · rw [if_pos h]
    simp [getCell, List.getD_eq_getElem?_getD]
  · rw [if_neg h]
    rw [List.getElem?_eq_none (by omega)]
    show "nan" = normalizeUnit (Option.getD none "nan")
    exact normalizeUnit_nan.symm

theorem mem_pipeFilteredRows (cols : List String) (dc uc : String)
    (rows : List (List String)) (r : List String)
    (h : r ∈ pipeFilteredRows cols dc uc rows) :
    is_pipe_row (getCell cols r dc) = true ∧
      ∃ r0 ∈ rows, r = normalizeUnitRow cols uc r0 := by
  unfold pipeFilteredRows at h
  obtain ⟨hmem, hp⟩ := List.mem_filter.mp h
  obtain ⟨r0, hr0, heq⟩ := List.mem_map.mp hmem
  exact ⟨hp, r0, hr0, heq.symm⟩

/-- C1 counterexample: for the Unit cell " RMT " the emitted Units field is
the internally normalized value "meter", not the stripped original-cased
value "RMT"; the lowercased/synonym-normalized unit does appear in the
output. -/
theorem c1_units_lowercased_cex :
    process_boq_file boqSampleUnits =
      [OutRecord.item { tdr := "TDR-A"
                        file := "boq.xlsx"
                        desc := "DI Pipe 100mm"
                        k9 := ""
                        k7 := ""
                        dia := some 100
                        rate := some 0
                        units := "meter"
                        qty := none }] ∧
    pyStrip " RMT " = "RMT" ∧ ("meter" : String) ≠ "RMT" :=
  ⟨by decide, by decide, by decide⟩

/-- C1 amended: the emitted Units field of every ExtractedItem equals the
internally normalized unit value (trimmed, lowercased, synonym-collapsed) of
its source row's Unit cell, because line 67 reassigns the unit column in
place before line 82 reads it back. -/
theorem c1_units_amended (tdr file : String) (cols : List String)
    (rows : List (List String)) (it : Item)
    (h : OutRecord.item it ∈ extract_items tdr file cols rows) :
    ∃ r ∈ rows,
      it.units =
        normalizeUnit (getCell cols r ((find_column cols ["unit"]).getD "")) := by
  obtain ⟨-, r, hr, rfl⟩ := mem_extract_items tdr file cols rows it h
  obtain ⟨-, r0, hr0, rfl⟩ := mem_pipeFilteredRows _ _ _ _ _ hr
  refine ⟨r0, hr0, ?_⟩
  show pyStrip (getCell cols
    (normalizeUnitRow cols ((find_column cols ["unit"]).getD "") r0)
    ((find_column cols ["unit"]).getD "")) = _
  rw [getCell_normalizeUnitRow, pyStrip_normalizeUnit]

/-- C1 amended witness at the concrete sample file. -/
theorem c1_units_amended_witness :
    ∃ r ∈ [["DI Pipe 100mm", " RMT "]],
      ({ tdr := "TDR-A"
         file := "boq.xlsx"
         desc := "DI Pipe 100mm"
         k9 := ""
         k7 := ""
         dia := some 100
         rate := some 0
         units := "meter"
         qty := none } : Item).units =
        normalizeUnit (getCell ["Item Description", "Unit"] r
          ((find_column ["Item Description", "Unit"] ["unit"]).getD "")) :=
  c1_units_amended "TDR-A" "boq.xlsx" ["Item Description", "Unit"]
    [["DI Pipe 100mm", " RMT "]] _ (by decide)

/-- C2 counterexample: a batch whose combined rows are nonempty but all fail
the DIA >= 80 filter takes the success branch and renders an empty table; it
does not report the "no matching rows" warning. -/
theorem c2_zero_after_filter_cex :
    runBatch [boqSampleSmallDia] = BatchOutcome.rendered [] ∧
    filterDia (combinedRows [boqSampleSmallDia]) = [] ∧
    combinedRows [boqSampleSmallDia] ≠ [] ∧
    runBatch [boqSampleSmallDia] ≠ BatchOutcome.warnNoRows :=
  ⟨by decide, by decide, by decide, by decide⟩

/-- C2 amended: the "No matching BOQ rows found" warning is reported exactly
when the pre-filter combined rows are empty; a batch that is nonempty before
the filter but empty after it renders an empty table instead (or fails with
a missing-DIA-column error when it contains no item records at all). -/
theorem c2_warning_iff_prefilter_empty (files : List BOQInput) :
    runBatch files = BatchOutcome.warnNoRows ↔ combinedRows files = [] := by
  unfold runBatch
  by_cases h : (combinedRows files).isEmpty = true
  · rw [if_pos h]
    simp [List.isEmpty_iff.mp h]
  · rw [if_neg h]
    have hne : combinedRows files ≠ [] := fun he => h (List.isEmpty_iff.mpr he)
    constructor
    · intro h2
      by_cases ha : (combinedRows files).any isItemRec = true
      · rw [if_pos ha] at h2
        cases h2
      · rw [if_neg ha] at h2
        cases h2
    · intro h2
      exact absurd h2 hne

/-- C3: on any text, `extract_dia` returns the integer formed by the digits of
the first occurrence, in the lowercased text, of one-or-more digits followed
by optional whitespace and "mm"; it returns `none` exactly when no position
of the lowercased text carries such an occurrence. -/
theorem c3_extract_dia_spec (s : String) :
    (∀ n, extract_dia s = some n ↔
      ∃ i, DiaTokenAt ((pyLower s).data.drop i) n ∧
        ∀ j, j < i → ∀ m, ¬DiaTokenAt ((pyLower s).data.drop j) m) ∧
    (extract_dia s = none ↔ ∀ i m, ¬DiaTokenAt ((pyLower s).data.drop i) m) := by
  constructor
  · intro n
    rw [show extract_dia s = diaScan (pyLower s).data from rfl,
      diaScan_some_iff]
    constructor
    · rintro ⟨i, hi, hlt⟩
      refine ⟨i, (diaMatchAt_some_iff _ _).mp hi, ?_⟩
      intro j hj m hm
      have hnone := hlt j hj
      rw [(diaMatchAt_some_iff _ _).mpr hm] at hnone
      cases hnone
    · rintro ⟨i, hi, hlt⟩
      refine ⟨i, (diaMatchAt_some_iff _ _).mpr hi, ?_⟩
      intro j hj
      cases hmj : diaMatchAt ((pyLower s).data.drop j) with
      | none => rfl
      | some m => exact absurd ((diaMatchAt_some_iff _ _).mp hmj) (hlt j hj m)
  · rw [show extract_dia s = diaScan (pyLower s).data from rfl,
      diaScan_none_iff]
    constructor
    · intro h i m hm
      have hnone := h i
      rw [(diaMatchAt_some_iff _ _).mpr hm] at hnone
      cases hnone
    · intro h i
      cases hmj : diaMatchAt ((pyLower s).data.drop i) with
      | none => rfl
      | some m => exact absurd ((diaMatchAt_some_iff _ _).mp hmj) (h i m)

theorem diaPass_iff (r : OutRecord) :
    diaPass r = true ↔ ∃ n, recDia r = some n ∧ 80 ≤ n := by
  unfold diaPass
  cases recDia r with
  | none => simp
  | some n => simp

theorem renderedRows_mem_iff (files : List BOQInput) (r : OutRecord) :
    (∃ k, (k, r) ∈ renderedRows (runBatch files)) ↔
      r ∈ combinedRows files ∧ diaPass r = true := by
  unfold runBatch
  by_cases h : (combinedRows files).isEmpty = true
  · rw [if_pos h]
    simp [renderedRows, List.isEmpty_iff.mp h]
  · rw [if_neg h]
    by_cases ha : (combinedRows files).any isItemRec = true
    · rw [if_pos ha]
      simp only [renderedRows]
      rw [mem_addSerials]
      unfold filterDia
      rw [List.mem_filter]
    · rw [if_neg ha]
      simp only [renderedRows]
      constructor
      · rintro ⟨k, hk⟩
        cases hk
      · rintro ⟨hmem, hpass⟩
        have hfalse : isItemRec r = false := by
          by_contra hr
          exact ha (List.any_eq_true.mpr ⟨r, hmem, by simpa using hr⟩)
        cases r with
        | diag a b c => cases hpass
        | item it => cases hfalse

/-- C4: a record appears (with some serial number) in the rendered final
table iff it is one of the pre-filter combined records and its DIA value is a
number >= 80; in particular rows with DIA 79 or with no DIA are excluded,
DIA 80 is included, and no diagnostic record ever reaches the final table. -/
theorem c4_final_filter_spec :
    (∀ files r, (∃ k, (k, r) ∈ renderedRows (runBatch files)) ↔
      (r ∈ combinedRows files ∧ ∃ n, recDia r = some n ∧ 80 ≤ n)) ∧
    (∀ files k t f m,
      (k, OutRecord.diag t f m) ∉ renderedRows (runBatch files)) := by
  constructor
  · intro files r
    rw [renderedRows_mem_iff, diaPass_iff]
  · intro files k t f m hmem
    have h2 := (renderedRows_mem_iff files (OutRecord.diag t f m)).mp ⟨k, hmem⟩
    have : diaPass (OutRecord.diag t f m) = false := rfl
    rw [this] at h2
    cases h2.2

/-- C5: the Header Locator returns the first row index within the first
`min 30 (number of rows)` rows whose lowercased cells contain "desc" or
"item" somewhere and "unit" somewhere; when no such row exists it returns
none, and the File Extractor then emits the "Header not found" diagnostic. -/
theorem c5_header_locator_spec :
    (∀ (sheet : List (List String)) i, findHeaderRow sheet = some i ↔
      (i < min 30 sheet.length ∧ HeaderRowP (sheet.getD i []) ∧
        ∀ j, j < i → ¬HeaderRowP (sheet.getD j []))) ∧
    (∀ sheet : List (List String), findHeaderRow sheet = none ↔
      ∀ i, i < min 30 sheet.length → ¬HeaderRowP (sheet.getD i [])) ∧
    (∀ inp graw, inp.raw = Except.ok graw → findHeaderRow graw = none →
      process_boq_file inp =
        [OutRecord.diag inp.tdr inp.file "⚠️ Header not found"]) := by
  refine ⟨?_, ?_, ?_⟩
  · intro sheet i
    unfold findHeaderRow
    rw [findIdxFrom_some_iff]
    constructor
    · rintro ⟨-, h2, h3, h4⟩
      refine ⟨by omega, (rowIsHeader_iff _).mp h3, ?_⟩
      intro j hj hP
      have hfalse := h4 j (by omega) hj
      rw [(rowIsHeader_iff _).mpr hP] at hfalse
      cases hfalse
    · rintro ⟨h1, h2, h3⟩
      refine ⟨by omega, by omega, (rowIsHeader_iff _).mpr h2, ?_⟩
      intro j hj1 hj2
      cases hr : rowIsHeader (sheet.getD j []) with
      | false => rfl
      | true => exact absurd ((rowIsHeader_iff _).mp hr) (h3 j hj2)
  · intro sheet
    unfold findHeaderRow
    rw [findIdxFrom_none_iff]
    constructor
    · intro h i hi hP
      have hfalse := h i (by omega) (by omega)
      rw [(rowIsHeader_iff _).mpr hP] at hfalse
      cases hfalse
    · intro h j hj1 hj2
      cases hr : rowIsHeader (sheet.getD j []) with
      | false => rfl
      | true => exact absurd ((rowIsHeader_iff _).mp hr) (h j (by omega))
  · intro inp graw h1 h2
    simp only [process_boq_file, h1, h2]

/-- C5 witness: a sheet with no header row within the window yields the
"Header not found" diagnostic. -/
theorem c5_header_locator_witness :
    process_boq_file
      { tdr := "T"
        file := "f.xlsx"
        raw := Except.ok [["banner row"], ["totals"]]
        structuredAt := fun _ => Except.error "unused" } =
      [OutRecord.diag "T" "f.xlsx" "⚠️ Header not found"] :=
  c5_header_locator_spec.2.2 _ [["banner row"], ["totals"]] rfl (by decide)

/-- C6: a row is classified pipe-related exactly when its lowercased
Description contains one of the nine keyword substrings, and every extracted
item comes from a row whose Description passed this classifier. -/
theorem c6_pipe_classifier_spec :
    (∀ desc, is_pipe_row desc = true ↔
      ∃ kw ∈ pipeKeywords, SubStr kw (pyLower desc)) ∧
    (∀ tdr file cols rows it,
      OutRecord.item it ∈ extract_items tdr file cols rows →
      is_pipe_row it.desc = true) := by
  constructor
  · intro desc
    simp [is_pipe_row, List.any_eq_true, containsSub_iff]
  · intro tdr file cols rows it h
    obtain ⟨-, r, hr, rfl⟩ := mem_extract_items tdr file cols rows it h
    exact (mem_pipeFilteredRows _ _ _ _ _ hr).1

/-- C6 witness: the item extracted from a concrete sheet satisfies the
classifier. -/
theorem c6_pipe_classifier_witness :
    is_pipe_row "HDPE Pipe 110mm" = true :=
  c6_pipe_classifier_spec.2 "T" "f.xlsx" ["Item", "Unit"]
    [["HDPE Pipe 110mm", "m"]]
    { tdr := "T"
      file := "f.xlsx"
      desc := "HDPE Pipe 110mm"
      k9 := ""
      k7 := ""
      dia := some 110
      rate := some 0
      units := "m"
      qty := none }
    (by decide)

theorem yes_iff (b : Bool) : (if b then ("Yes" : String) else "") = "Yes" ↔ b = true := by
  cases b <;> simp

/-- C7: the K-9 flag is "Yes" exactly when the lowercased description
contains "k-9" or "k9", the K-7 flag exactly when it contains "k-7"; each
flag is always either "Yes" or the empty string, the two are independent
(all four combinations occur), and the emitted item fields are exactly these
flags of the item's description. -/
theorem c7_flags_spec :
    (∀ desc,
      (k9Flag desc = "Yes" ↔
        SubStr "k-9" (pyLower desc) ∨ SubStr "k9" (pyLower desc)) ∧
      (k9Flag desc = "Yes" ∨ k9Flag desc = "") ∧
      (k7Flag desc = "Yes" ↔ SubStr "k-7" (pyLower desc)) ∧
      (k7Flag desc = "Yes" ∨ k7Flag desc = "")) ∧
    (k9Flag "K-7/K-9 DI Pipe" = "Yes" ∧ k7Flag "K-7/K-9 DI Pipe" = "Yes" ∧
      k9Flag "K-9 Pipe" = "Yes" ∧ k7Flag "K-9 Pipe" = "" ∧
      k9Flag "K-7 CI Pipe" = "" ∧ k7Flag "K-7 CI Pipe" = "Yes" ∧
      k9Flag "M.S Pipe" = "" ∧ k7Flag "M.S Pipe" = "") ∧
    (∀ tdr file cols rows it,
      OutRecord.item it ∈ extract_items tdr file cols rows →
      it.k9 = k9Flag it.desc ∧ it.k7 = k7Flag it.desc) := by
  refine ⟨?_, by decide, ?_⟩
  · intro desc
    refine ⟨?_, ?_, ?_, ?_⟩
    · unfold k9Flag
      rw [yes_iff]
      simp [containsSub_iff]
    · unfold k9Flag
      split
      · exact Or.inl rfl
      · exact Or.inr rfl
    · unfold k7Flag
      rw [yes_iff]
      simp [containsSub_iff]
    · unfold k7Flag
      split
      · exact Or.inl rfl
      · exact Or.inr rfl
  · intro tdr file cols rows it h
    obtain ⟨-, r, hr, rfl⟩ := mem_extract_items tdr file cols rows it h
    exact ⟨rfl, rfl⟩

/-- C7 witness: the flag fields of a concretely extracted item equal the
flag derivations on its description. -/
theorem c7_flags_witness :
    ({ tdr := "T"
       file := "f.xlsx"
       desc := "K-7/K-9 DI Pipe 100mm"
       k9 := "Yes"
       k7 := "Yes"
       dia := some 100
       rate := some 0
       units := "m"
       qty := none } : Item).k9 = k9Flag "K-7/K-9 DI Pipe 100mm" ∧
    ({ tdr := "T"
       file := "f.xlsx"
       desc := "K-7/K-9 DI Pipe 100mm"
       k9 := "Yes"
       k7 := "Yes"
       dia := some 100
       rate := some 0
       units := "m"
       qty := none } : Item).k7 = k7Flag "K-7/K-9 DI Pipe 100mm" :=
  c7_flags_spec.2.2 "T" "f.xlsx" ["Item", "Unit"]
    [["K-7/K-9 DI Pipe 100mm", "m"]] _ (by decide)

/-- C8: the Column Resolver returns, per keyword set, the first column in
sheet order whose lowercased label contains a keyword (none if no column
matches); an unresolved Description or Unit makes the file yield the single
MissingRequiredColumns diagnostic, while an unresolved Quantity or Rate is
non-fatal and defaults the corresponding item fields to absent and zero. -/
theorem c8_column_resolver_spec :
    (∀ (cols kws : List String) c, find_column cols kws = some c ↔
      ∃ pre suf, cols = pre ++ c :: suf ∧ ColMatchP c kws ∧
        ∀ x ∈ pre, ¬ColMatchP x kws) ∧
    (∀ cols kws : List String, find_column cols kws = none ↔
      ∀ x ∈ cols, ¬ColMatchP x kws) ∧
    (∀ tdr file cols rows,
      (find_column cols ["desc", "item"] = none ∨
        find_column cols ["unit"] = none) →
      extract_items tdr file cols rows =
        [OutRecord.diag tdr file "⚠️ Missing required columns"]) ∧
    (∀ tdr file cols rows it,
      OutRecord.item it ∈ extract_items tdr file cols rows →
      (find_column cols ["qty", "quantity"] = none → it.qty = none) ∧
      (find_column cols ["rate", "amount", "estimate"] = none →
        it.rate = some 0)) := by
  refine ⟨fun cols kws c => find_column_some_iff kws cols c,
    fun cols kws => find_column_none_iff kws cols, ?_, ?_⟩
  · intro tdr file cols rows h
    rcases h with h | h
    · simp [extract_items, h, pyFalsy]
    · simp [extract_items, h, pyFalsy]
  · intro tdr file cols rows it h
    obtain ⟨-, r, hr, rfl⟩ := mem_extract_items tdr file cols rows it h
    constructor
    · intro hq
      show (if pyFalsy (find_column cols ["qty", "quantity"]) then none
        else pyToNumeric (getCell cols r
          ((find_column cols ["qty", "quantity"]).getD ""))) = none
      rw [hq]
      rfl
    · intro hrt
      show (if pyFalsy (find_column cols ["rate", "amount", "estimate"]) then some 0
        else pyToNumeric (getCell cols r
          ((find_column cols ["rate", "amount", "estimate"]).getD ""))) = some 0
      rw [hrt]
      rfl

/-- C8 witness: a sheet without Description or Unit columns yields the
MissingRequiredColumns diagnostic. -/
theorem c8_column_resolver_witness :
    extract_items "T" "f.xlsx" ["SL", "Amount"] [["1", "200"]] =
      [OutRecord.diag "T" "f.xlsx" "⚠️ Missing required columns"] :=
  c8_column_resolver_spec.2.2.1 "T" "f.xlsx" ["SL", "Amount"] [["1", "200"]]
    (Or.inl (by decide))

/-- C9: the File Extractor is a total function of its inputs; an unreadable
file, an undetected header, a failed structured re-parse, and missing
required columns each yield exactly one diagnostic record, a successful
parse with zero pipe-classified rows yields the empty sequence, and in
general the result is either a single diagnostic or a list of items. -/
theorem c9_extractor_diagnostics_spec (inp : BOQInput) :
    (∀ e, inp.raw = Except.error e →
      process_boq_file inp =
        [OutRecord.diag inp.tdr inp.file ("❌ Failed to read file: " ++ e)]) ∧
    (∀ graw, inp.raw = Except.ok graw → findHeaderRow graw = none →
      process_boq_file inp =
        [OutRecord.diag inp.tdr inp.file "⚠️ Header not found"]) ∧
    (∀ graw hi e, inp.raw = Except.ok graw → findHeaderRow graw = some hi →
      inp.structuredAt hi = Except.error e →
      process_boq_file inp =
        [OutRecord.diag inp.tdr inp.file
          ("❌ Error loading structured data: " ++ e)]) ∧
    (∀ graw hi cols rows, inp.raw = Except.ok graw →
      findHeaderRow graw = some hi →
      inp.structuredAt hi = Except.ok (cols, rows) →
      (pyFalsy (find_column cols ["desc", "item"]) ||
        pyFalsy (find_column cols ["unit"])) = true →
      process_boq_file inp =
        [OutRecord.diag inp.tdr inp.file "⚠️ Missing required columns"]) ∧
    (∀ graw hi cols rows, inp.raw = Except.ok graw →
      findHeaderRow graw = some hi →
      inp.structuredAt hi = Except.ok (cols, rows) →
      (pyFalsy (find_column cols ["desc", "item"]) ||
        pyFalsy (find_column cols ["unit"])) = false →
      pipeFilteredRows cols ((find_column cols ["desc", "item"]).getD "")
        ((find_column cols ["unit"]).getD "") rows = [] →
      process_boq_file inp = []) ∧
    ((∃ t f m, process_boq_file inp = [OutRecord.diag t f m]) ∨
      (∃ its : List Item, process_boq_file inp = its.map OutRecord.item)) := by
  refine ⟨?_, ?_, ?_, ?_, ?_, ?_⟩
  · intro e he
    simp only [process_boq_file, he]
  · intro graw h1 h2
    simp only [process_boq_file, h1, h2]
  · intro graw hi e h1 h2 h3
    simp only [process_boq_file, h1, h2, h3]
  · intro graw hi cols rows h1 h2 h3 h4
    simp only [process_boq_file, h1, h2, h3]
    unfold extract_items
    rw [if_pos h4]
  · intro graw hi cols rows h1 h2 h3 h4 h5
    simp only [process_boq_file, h1, h2, h3]
    rw [extract_items_eq_map _ _ _ _ h4, h5]
    rfl
  · cases hraw : inp.raw with
    | error e =>
      exact Or.inl ⟨inp.tdr, inp.file, "❌ Failed to read file: " ++ e,
        by simp only [process_boq_file, hraw]⟩
    | ok graw =>
      cases hh : findHeaderRow graw with
      | none =>
        exact Or.inl ⟨inp.tdr, inp.file, "⚠️ Header not found",
          by simp only [process_boq_file, hraw, hh]⟩
      | some hi =>
        cases hs : inp.structuredAt hi with
        | error e =>
          exact Or.inl ⟨inp.tdr, inp.file, "❌ Error loading structured data: " ++ e,
            by simp only [process_boq_file, hraw, hh, hs]⟩
        | ok cr =>
          obtain ⟨cols, rows⟩ := cr
          have hp : process_boq_file inp = extract_items inp.tdr inp.file cols rows := by
            simp only [process_boq_file, hraw, hh, hs]
          by_cases hc : (pyFalsy (find_column cols ["desc", "item"]) ||
              pyFalsy (find_column cols ["unit"])) = true
          · refine Or.inl ⟨inp.tdr, inp.file, "⚠️ Missing required columns", ?_⟩
            rw [hp]
            unfold extract_items
            rw [if_pos hc]
          · have hc' := Bool.eq_false_iff.mpr hc
            refine Or.inr ⟨(pipeFilteredRows cols
              ((find_column cols ["desc", "item"]).getD "")
              ((find_column cols ["unit"]).getD "") rows).map
                (buildItem inp.tdr inp.file cols
                  ((find_column cols ["desc", "item"]).getD "")
                  ((find_column cols ["unit"]).getD "")
                  (find_column cols ["qty", "quantity"])
                  (find_column cols ["rate", "amount", "estimate"])), ?_⟩
            rw [hp, extract_items_eq_map _ _ _ _ hc', List.map_map]
            rfl

/-- C9 witness: an unreadable file produces exactly its one diagnostic
record. -/
theorem c9_extractor_diagnostics_witness :
    process_boq_file
      { tdr := "T"
        file := "bad.xlsx"
        raw := Except.error "corrupt stream"
        structuredAt := fun _ => Except.error "unused" } =
      [OutRecord.diag "T" "bad.xlsx" "❌ Failed to read file: corrupt stream"] :=
  (c9_extractor_diagnostics_spec
    { tdr := "T"
      file := "bad.xlsx"
      raw := Except.error "corrupt stream"
      structuredAt := fun _ => Except.error "unused" }).1 "corrupt stream" rfl

/-- C10: the synonym collapse to "meter" is an exact whole-value replacement
after trim and lowercase: it applies exactly when the whole trimmed
lowercased cell equals one of the five synonyms, and values merely containing
a synonym as a proper substring pass through unchanged. -/
theorem c10_unit_synonym_exact :
    (∀ s, (pyLower (pyStrip s) = "per metre" ∨ pyLower (pyStrip s) = "rm" ∨
        pyLower (pyStrip s) = "rmt" ∨ pyLower (pyStrip s) = "mtr" ∨
        pyLower (pyStrip s) = "mtrs") →
      normalizeUnit s = "meter") ∧
    (∀ s, ¬(pyLower (pyStrip s) = "per metre" ∨ pyLower (pyStrip s) = "rm" ∨
        pyLower (pyStrip s) = "rmt" ∨ pyLower (pyStrip s) = "mtr" ∨
        pyLower (pyStrip s) = "mtrs") →
      normalizeUnit s = pyLower (pyStrip s)) ∧
    (normalizeUnit "rmt/km" = "rmt/km" ∧ normalizeUnit "100 rmt" = "100 rmt" ∧
      normalizeUnit " RMT " = "meter" ∧ normalizeUnit "each" = "each") := by
  refine ⟨?_, ?_, by decide⟩
  · intro s h
    unfold normalizeUnit
    rw [if_pos (by simpa [unitSynonyms] using h)]
  · intro s h
    unfold normalizeUnit
    rw [if_neg (by simpa [unitSynonyms] using h)]

/-- C10 witness: "rmt" as a whole value collapses to "meter". -/
theorem c10_unit_synonym_witness : normalizeUnit "rmt" = "meter" :=
  c10_unit_synonym_exact.1 "rmt" (by decide)

/-- C2 amended witness: an empty batch reports the warning. -/
theorem c2_warning_iff_prefilter_empty_witness :
    runBatch [] = BatchOutcome.warnNoRows :=
  (c2_warning_iff_prefilter_empty []).mpr rfl

/-- C3 witness: "DI Pipe K-9 150mm" parses to 150, so its lowercased text
carries a first digits-whitespace-"mm" occurrence with value 150. -/
theorem c3_extract_dia_witness :
    ∃ i, DiaTokenAt ((pyLower "DI Pipe K-9 150mm").data.drop i) 150 ∧
      ∀ j, j < i → ∀ m,
        ¬DiaTokenAt ((pyLower "DI Pipe K-9 150mm").data.drop j) m :=
  ((c3_extract_dia_spec "DI Pipe K-9 150mm").1 150).mp (by rfl)

/-- C4 witness: a diagnostic record never appears in the rendered table of a
concrete batch. -/
theorem c4_final_filter_witness :
    (1, OutRecord.diag "T" "f.xlsx" "⚠️ Header not found") ∉
      renderedRows (runBatch []) :=
  c4_final_filter_spec.2 [] 1 "T" "f.xlsx" "⚠️ Header not found"

end BOQ
